import Mathlib

/-!
Verification of the walcraft WAL core against its specification.

The embedding below translates the repository's Rust sources into Lean:
 - src/lock.rs   : the quiesce coordinator (two atomic boolean flags),
 - src/entry.rs  : the frame codec (4-byte native-endian length prefix),
 - src/buffer.rs : the staging buffer (mutex-serialized vector),
 - src/reader.rs : the segment reader (segment visitation order and the
                   frame-parsing loop),
 - src/writer.rs : the segment writer (construction, one iteration of its
                   main loop, and segment rotation),
 - src/lib.rs    : the engine facade (write, batch_write, and the
                   decode-and-truncate phase of read).

Bytes are modelled as `Nat` values below 256; machine-integer truncation
(`len as u32`) is made explicit with `% 2 ^ 32` decompositions.  Native
endianness is modelled as little-endian (the reference platform).  The
mutex in buffer.rs serializes all accesses, so concurrent histories are
modelled as sequences of operations.  File I/O is modelled as a pure file
system state (`Fs`); a Rust method that can abort the process (an index
out of bounds, or an explicit contract-violation abort in lock.rs) is
modelled with an `Option` result or a dedicated outcome constructor, with
`none` / `panicked` marking the abort.
-/

namespace Walcraft

/-! ### src/lock.rs — the quiesce coordinator -/

/-- The two atomic flags of `LockInner` (src/lock.rs lines 4-9):
`can_write` is the request flag from the interface to the writer,
`is_writing` is the acknowledgement flag from the writer. -/
structure Lock where
  can_write : Bool
  is_writing : Bool
deriving DecidableEq

/-- `Lock::new` (src/lock.rs lines 12-17, 27-31): both flags start true. -/
def Lock.new : Lock := ⟨true, true⟩

/-- `Lock::request_to_stop` (src/lock.rs lines 39-41): clears `can_write`. -/
def Lock.request_to_stop (l : Lock) : Lock := { l with can_write := false }

/-- `Lock::stop` (src/lock.rs lines 44-49): aborts (modelled `none`) if
`can_write` is still set, otherwise clears `is_writing`. -/
def Lock.stop (l : Lock) : Option Lock :=
  if l.can_write then none else some { l with is_writing := false }

/-- `Lock::has_stopped` (src/lock.rs lines 52-57): aborts (modelled `none`)
if `can_write` is still set, otherwise returns the raw `is_writing` flag. -/
def Lock.has_stopped (l : Lock) : Option Bool :=
  if l.can_write then none else some l.is_writing

/-- `Lock::start` (src/lock.rs lines 61-64): resets both flags to true. -/
def Lock.start (_ : Lock) : Lock := ⟨true, true⟩

/-! ### src/entry.rs — the frame codec -/

/-- `LogEntry` (src/entry.rs lines 3-7): wraps the encoded payload bytes. -/
structure LogEntry where
  inner : List Nat
deriving DecidableEq

/-- `LogEntry::from_vec` (src/entry.rs lines 23-25). -/
def LogEntry.from_vec (v : List Nat) : LogEntry := ⟨v⟩

/-- `(n as u32).to_ne_bytes()`: the four little-endian base-256 digits of
`n % 2 ^ 32` (the `as u32` cast truncates; native order is little-endian
on the reference platform). -/
def u32_to_ne_bytes (n : Nat) : List Nat :=
  [n % 256, n / 256 % 256, n / 65536 % 256, n / 16777216 % 256]

/-- `u32::from_ne_bytes([b0,b1,b2,b3])` for bytes below 256. -/
def u32_from_ne_bytes (b0 b1 b2 b3 : Nat) : Nat :=
  b0 + 256 * b1 + 65536 * b2 + 16777216 * b3

/-- `LogEntry::to_vec` (src/entry.rs lines 27-32): the 4-byte length
header followed by the payload. -/
def LogEntry.to_vec (e : LogEntry) : List Nat :=
  u32_to_ne_bytes e.inner.length ++ e.inner

/-- `LogEntry::to_original` (src/entry.rs lines 34-39) with the byte-level
decode capability `dec` (bincode, an external collaborator) abstracted. -/
def LogEntry.to_original (dec : List Nat → Option T) (e : LogEntry) : Option T :=
  dec e.inner

/-! ### src/buffer.rs — the staging buffer

The `Arc<Mutex<Vec<LogEntry>>>` serializes all accesses, so the buffer is
modelled as the plain list guarded by the mutex; each operation returns
the new contents together with its result. -/

/-- `Buffer::add` (src/buffer.rs lines 17-25): records whether the buffer
was empty before the push, then pushes.  Returns (new contents, notify). -/
def Buffer.add (buf : List LogEntry) (entry : LogEntry) : List LogEntry × Bool :=
  (buf ++ [entry], buf.isEmpty)

/-- `Buffer::bulk_add` (src/buffer.rs lines 28-36): records whether the
buffer was empty before the extend, then extends. -/
def Buffer.bulk_add (buf : List LogEntry) (entries : List LogEntry) :
    List LogEntry × Bool :=
  (buf ++ entries, buf.isEmpty)

/-- `Buffer::drain` (src/buffer.rs lines 39-53): swaps the contents out,
leaving the buffer empty, and returns what was there. -/
def Buffer.drain (buf : List LogEntry) : List LogEntry × List LogEntry :=
  ([], buf)

/-- A producer-side buffer operation: one `add` or one `bulk_add` call.
The mutex serializes concurrent calls, so any multi-threaded history of
insertions is some sequence of these operations. -/
inductive BufOp
  | add (entry : LogEntry)
  | bulkAdd (entries : List LogEntry)
deriving DecidableEq

/-- Apply one buffer operation. -/
def BufOp.apply (buf : List LogEntry) : BufOp → List LogEntry × Bool
  | .add e => Buffer.add buf e
  | .bulkAdd es => Buffer.bulk_add buf es

/-- How many frames one operation inserts. -/
def BufOp.size : BufOp → Nat
  | .add _ => 1
  | .bulkAdd es => es.length

/-- Run a sequence of buffer operations, collecting each call's
"was empty before insert" return value in order. -/
def runOps (buf : List LogEntry) : List BufOp → List Bool
  | [] => []
  | op :: ops => (BufOp.apply buf op).2 :: runOps (BufOp.apply buf op).1 ops

/-! ### The on-disk state

File I/O is modelled as a pure file-system state: the `meta` file's text
and each segment file's bytes.  A missing segment file reads as `[]`,
matching the reader's skip of files that fail to open (src/reader.rs
line 24) and the create-if-absent open in the writer (src/writer.rs
lines 152-156). -/

/-- The on-disk state: `meta` holds the pointer file's contents, `segs i`
holds the contents of file `wal_i`.  The meta file physically holds the
decimal text of the pointer (`pointer.to_string()` written,
`parse::<u8>()` read back); decimal printing and parsing are mutually
inverse, so the model stores the numeric value itself, and a value above
255 models text that fails the `u8` parse. -/
structure Fs where
  meta : Nat
  segs : Nat → List Nat

/-- Append bytes to segment file `wal_pointer` (the writer's handle is
open in append mode). -/
def Fs.append_seg (fs : Fs) (pointer : Nat) (bytes : List Nat) : Fs :=
  { fs with segs := fun i => if i = pointer then fs.segs i ++ bytes else fs.segs i }

/-! ### src/reader.rs — the segment reader -/

/-- `WalError` (src/lib.rs lines 20-25). -/
inductive WalError
  | Capacity (msg : String)
  | File (msg : String)
  | Serialization (msg : String)
deriving DecidableEq

/-- One pass of the `while d.len() < 5` loop in `WalReader::read_order`
(src/reader.rs lines 57-67), with the remaining number of pushes as the
structural argument: push the pointer, then decrement it, wrapping
`0 ↦ 5`.  (`pointer` is a `u8` and comes from the meta file, so it is at
least 1 whenever the writer wrote it; `Nat` subtraction makes the model
total at 0 as well.) -/
def read_order_aux : Nat → Nat → List Nat
  | _, 0 => []
  | pointer, n + 1 =>
      pointer :: read_order_aux (if pointer - 1 < 1 then 5 else pointer - 1) n

/-- `WalReader::read_order` (src/reader.rs lines 57-67): exactly five
pushes starting from the current pointer. -/
def read_order (pointer : Nat) : List Nat := read_order_aux pointer 5

/-- Result of the frame-parsing loop: either the parsed frames, or an
aborted process (`panicked`) from an out-of-bounds index. -/
inductive ParseOutcome
  | ok (frames : List LogEntry)
  | panicked
deriving DecidableEq

/-- The frame-parsing loop of `WalReader::read` (src/reader.rs lines
30-44), consuming the unread suffix of the byte buffer.  Each iteration
reads the 4 header bytes `buffer[offset .. offset+3]` (an out-of-bounds
index aborts: fewer than 4 bytes left), computes `size`, and takes the
slice `buffer[offset+4 .. offset+4+size]` (aborting when the end passes
the available bytes).  The loop advances `offset` by at least 4 per
iteration, so `buffer.length` iterations of fuel always suffice; the
fuel-exhausted case is unreachable whenever `fuel ≥ buffer.length`. -/
def parse_frames_aux : Nat → List Nat → ParseOutcome
  | _, [] => .ok []
  | 0, _ :: _ => .panicked
  | fuel + 1, b0 :: b1 :: b2 :: b3 :: rest =>
      let size := u32_from_ne_bytes b0 b1 b2 b3
      if size ≤ rest.length then
        match parse_frames_aux fuel (rest.drop size) with
        | .ok frames => .ok (LogEntry.from_vec (rest.take size) :: frames)
        | .panicked => .panicked
      else
        .panicked
  | _ + 1, _ => .panicked

/-- The frame-parsing loop of `WalReader::read` on a whole buffer. -/
def parse_frames (buffer : List Nat) : ParseOutcome :=
  parse_frames_aux buffer.length buffer

/-- `WalReader::current_pointer` (src/reader.rs lines 48-55): read the
meta file and parse it as a `u8` (value at most 255; larger values model
text the parse rejects). -/
def WalReader.current_pointer (fs : Fs) : Except WalError Nat :=
  if fs.meta ≤ 255 then .ok fs.meta
  else .error (.File "Failed to read pointer file")

/-- The byte buffer `WalReader::read` accumulates (src/reader.rs lines
18-29): each segment in visitation order is read to the end into one
buffer, i.e. the segment contents are concatenated in `read_order`. -/
def WalReader.read_bytes (fs : Fs) (pointer : Nat) : List Nat :=
  ((read_order pointer).map fs.segs).flatten

/-- Result of `WalReader::read`: parsed entries, a returned error, or an
aborted process. -/
inductive ReadResult
  | ok (entries : List LogEntry)
  | err (e : WalError)
  | panicked
deriving DecidableEq

/-- `WalReader::read` (src/reader.rs lines 15-46): read the pointer,
concatenate the segments in visitation order, parse the frames. -/
def WalReader.read (fs : Fs) : ReadResult :=
  match WalReader.current_pointer fs with
  | .error e => .err e
  | .ok pointer =>
      match parse_frames (WalReader.read_bytes fs pointer) with
      | .ok entries => .ok entries
      | .panicked => .panicked

/-! ### src/writer.rs — the segment writer -/

/-- The writer's own state (src/writer.rs lines 11-28); the buffer, file
handle, lock and receiver are passed separately to the step function. -/
structure WalWriter where
  capacity_per_file : Nat
  filled : Nat
  pointer : Nat
deriving DecidableEq

/-- `WalWriter::write_pointer` (src/writer.rs lines 125-142):
`File::create` truncates the meta file and the decimal text of the
pointer is written (stored as its value, see `Fs`). -/
def WalWriter.write_pointer (fs : Fs) (pointer : Nat) : Fs :=
  { fs with meta := pointer }

/-- `WalWriter::open_file` (src/writer.rs lines 144-157): when `delete`
is set, `File::create` truncates `wal_pointer`; the file is then opened
in append mode (creating it empty if absent, which the `[]` default of
`Fs.segs` already models). -/
def WalWriter.open_file (fs : Fs) (pointer : Nat) (delete : Bool) : Fs :=
  if delete then { fs with segs := fun i => if i = pointer then [] else fs.segs i }
  else fs

/-- `WalWriter::set_pointer` (src/writer.rs lines 114-123): write the
pointer to the meta file, open the pointed-to segment, and report a
`filled` count of 0. -/
def WalWriter.set_pointer (fs : Fs) (pointer : Nat) (delete : Bool) : Fs × Nat :=
  (WalWriter.open_file (WalWriter.write_pointer fs pointer) pointer delete, 0)

/-- `WalWriter::new` (src/writer.rs lines 30-50): pointer starts at 1,
`set_pointer` is called without deletion, `capacity_per_file` is a
quarter of the configured capacity. -/
def WalWriter.new (fs : Fs) (capacity : Nat) : WalWriter × Fs :=
  let r := WalWriter.set_pointer fs 1 false
  ({ capacity_per_file := capacity / 4, filled := r.2, pointer := 1 }, r.1)

/-- `WalWriter::next_file` (src/writer.rs lines 95-112): advance the
pointer (wrapping `5 ↦ 1`), truncate and switch to that segment, record
it in the meta file, and reset `filled`. -/
def WalWriter.next_file (st : WalWriter) (fs : Fs) : WalWriter × Fs :=
  let next_pointer := if st.pointer + 1 > 5 then 1 else st.pointer + 1
  let r := WalWriter.set_pointer fs next_pointer true
  ({ st with pointer := next_pointer, filled := 0 }, r.1)

/-- What `Receiver::recv()` returned: a message, or an error because the
channel was closed (all senders dropped). -/
inductive RecvResult
  | msg
  | disconnected
deriving DecidableEq

/-- The state after one iteration of the writer's main loop: writer
state, file system, lock, buffer contents, and whether the loop exited
(`break`/`return`) during the iteration. -/
structure IterOut where
  st : WalWriter
  fs : Fs
  lock : Lock
  buffer : List LogEntry
  exits : Bool

/-- One iteration of the `loop` in `WalWriter::run` (src/writer.rs lines
56-93).  If the lock forbids writing, sleep briefly and continue.
Otherwise `let _d = self.receiver.recv();` blocks; its result — `recv`,
including a channel-closed error — is bound to `_d` and discarded.  The
buffer is then drained (if empty: spurious wake, continue); `filled` is
increased by the number of drained records; each record's `to_vec` bytes
are appended in order to the current segment; when `filled` reaches
`capacity_per_file` the writer rotates via `next_file`; finally, if a
stop was requested, the writer acknowledges with `stop()` (which, since
`can_write` is false on that branch, clears `is_writing`). -/
def WalWriter.run_iter (st : WalWriter) (fs : Fs) (lock : Lock)
    (buffer : List LogEntry) (recv : RecvResult) : IterOut :=
  if !lock.can_write then
    ⟨st, fs, lock, buffer, false⟩
  else
    let _d := recv
    if buffer.isEmpty then
      ⟨st, fs, lock, buffer, false⟩
    else
      let data := buffer
      let filled1 := st.filled + data.length
      let fs1 := Fs.append_seg fs st.pointer ((data.map LogEntry.to_vec).flatten)
      let lock2 := if !lock.can_write then { lock with is_writing := false } else lock
      if filled1 ≥ st.capacity_per_file then
        let r := WalWriter.next_file { st with filled := filled1 } fs1
        ⟨r.1, r.2, lock2, [], false⟩
      else
        ⟨{ st with filled := filled1 }, fs1, lock2, [], false⟩

/-! ### src/lib.rs — the engine facade -/

/-- `Wal::write` (src/lib.rs lines 163-175) with the encode capability
abstracted: an encode failure returns at once; otherwise the entry is
added to the buffer and a notification is sent exactly when `add`
reported the empty-to-non-empty transition.  Returns the buffer contents
and whether a notification was sent. -/
def Wal.write (enc : T → Option LogEntry) (buf : List LogEntry) (entry : T) :
    List LogEntry × Bool :=
  match enc entry with
  | none => (buf, false)
  | some e => Buffer.add buf e

/-- `Wal::batch_write` (src/lib.rs lines 199-216): encode all entries,
keeping the successes in order; return at once if none encoded;
otherwise `bulk_add` and notify exactly on the reported transition. -/
def Wal.batch_write (enc : T → Option LogEntry) (buf : List LogEntry)
    (entries : List T) : List LogEntry × Bool :=
  let data := entries.filterMap enc
  if data.isEmpty then (buf, false)
  else Buffer.bulk_add buf data

/-- The decode-and-truncate phase of `Wal::read` (src/lib.rs lines
242-251): decode every entry with `to_original`, skipping failures; then,
if more than `capacity` records were decoded, `split_off` keeps only the
trailing `capacity` of them. -/
def Wal.read_post (dec : List Nat → Option T) (capacity : Nat)
    (entries : List LogEntry) : List T :=
  let data := entries.filterMap (fun e => LogEntry.to_original dec e)
  if capacity < data.length then data.drop (data.length - capacity) else data

/-! ### Theorems -/

/-- C1: the claim states that `has_stopped()` returns false after
`request_to_stop()` and before the writer's `stop()`, and true after
`stop()`.  The code does the opposite: `has_stopped` returns the raw
`is_writing` flag (src/lock.rs line 56), which is still true before the
writer acknowledges and is set to false by `stop` (line 48).  So on a
fresh lock, after `request_to_stop()`, `has_stopped()` already returns
true, and after the writer's `stop()` it returns false — contradicting
the claim, the method's own name and comment ("check if writer has
stopped"), and the polling loop in `Wal::read` (src/lib.rs line 235). -/
theorem C1_has_stopped_is_inverted :
    Lock.has_stopped (Lock.request_to_stop Lock.new) = some true ∧
    (Lock.stop (Lock.request_to_stop Lock.new)).bind Lock.has_stopped =
      some false := by
  decide

/-- C2: the claim states that a truncated trailing length header, or a
length reading past the available bytes, makes `WalReader::read` fail
with an error result rather than abort.  The parsing loop
(src/reader.rs lines 30-44) indexes `buffer[offset + 1 ..]` and slices
`&buffer[offset + 4 .. end]` without any bounds check, so both malformed
inputs abort the process (index out of bounds): with segment bytes
`[5, 0]` (a 2-byte truncated header) and with `[10, 0, 0, 0, 1, 2, 3]`
(length 10 but only 3 payload bytes available), `read` aborts instead of
returning an error. -/
theorem C2_reader_aborts_on_truncated_input :
    WalReader.read ⟨1, fun i => if i = 1 then [5, 0] else []⟩ = .panicked ∧
    WalReader.read ⟨1, fun i => if i = 1 then [10, 0, 0, 0, 1, 2, 3] else []⟩ =
      .panicked := by
  constructor <;> rfl

/-- C3 counterexample: with configured capacity `c = 100` and the ring
size `N = 5` (the pointer wraps `5 ↦ 1` in `next_file` and the reader
visits 5 segments), the claim predicts rotation after more than
`c / N = 20` records.  But `capacity_per_file = c / 4 = 25`
(src/writer.rs line 45), so flushing 21 records from a fresh writer
leaves the pointer unchanged at 1: the active segment index does not
advance. -/
theorem C3_no_rotation_after_c_div_5_records :
    100 / 5 < 21 ∧
    (WalWriter.run_iter (WalWriter.new ⟨0, fun _ => []⟩ 100).1
        (WalWriter.new ⟨0, fun _ => []⟩ 100).2 ⟨true, true⟩
        (List.replicate 21 ⟨[]⟩) .msg).st.pointer =
      (WalWriter.new ⟨0, fun _ => []⟩ 100).1.pointer := by
  exact ⟨by decide, rfl⟩

/-- C4 counterexample: the claim states that when the writer's blocking
`recv` returns because the notification channel was closed, the main
loop exits.  In `WalWriter::run` (src/writer.rs line 64) the result is
bound to `_d` and discarded, and the `loop` has no `break` or `return`:
at a concrete state, an iteration whose `recv` reports the channel
closed does not exit. -/
theorem C4_iteration_continues_on_disconnect :
    (WalWriter.run_iter ⟨25, 0, 1⟩ ⟨1, fun _ => []⟩ ⟨true, true⟩ []
        .disconnected).exits = false := by
  rfl

/-- C4 (amended): one iteration of the writer's main loop never exits,
whatever the lock, buffer, file system, or the reason `recv` returned —
a channel-closed `recv` error is discarded like any message and the loop
just continues with the next iteration. -/
theorem C4_loop_never_exits (st : WalWriter) (fs : Fs) (lock : Lock)
    (buffer : List LogEntry) (recv : RecvResult) :
    (WalWriter.run_iter st fs lock buffer recv).exits = false := by
  unfold WalWriter.run_iter
  dsimp only
  repeat' split
  all_goals rfl

/-- C3 (amended): the rotation threshold is `capacity / 4`, not
`capacity / N` for the ring size `N = 5`.  Whenever a flush brings the
filled counter to at least `capacity_per_file = capacity / 4`, the
writer rotates: the pointer advances to the next index (wrapping
`5 ↦ 1`), the filled counter resets to 0, the new index is recorded in
the meta file, and the target segment's prior contents are truncated
before reuse. -/
theorem C3_rotation_at_capacity_div_4 (st : WalWriter) (fs : Fs) (lock : Lock)
    (data : List LogEntry) (recv : RecvResult)
    (hw : lock.can_write = true) (hne : data ≠ [])
    (hfill : st.capacity_per_file ≤ st.filled + data.length) :
    (WalWriter.run_iter st fs lock data recv).st.pointer =
      (if st.pointer + 1 > 5 then 1 else st.pointer + 1) ∧
    (WalWriter.run_iter st fs lock data recv).st.filled = 0 ∧
    (WalWriter.run_iter st fs lock data recv).fs.meta =
      (WalWriter.run_iter st fs lock data recv).st.pointer ∧
    (WalWriter.run_iter st fs lock data recv).fs.segs
      (WalWriter.run_iter st fs lock data recv).st.pointer = [] := by
  have hbe : data.isEmpty = false := by
    cases data with
    | nil => exact absurd rfl hne
    | cons a l => rfl
  unfold WalWriter.run_iter
  rw [hw]
  simp only [Bool.not_true, Bool.false_eq_true, if_false, hbe, ge_iff_le, hfill,
    if_true, WalWriter.next_file, WalWriter.set_pointer, WalWriter.open_file,
    WalWriter.write_pointer, if_pos rfl]
  exact ⟨trivial, trivial, trivial, trivial⟩

/-- Witness for C3 (amended): a fresh writer with capacity 100
(`capacity_per_file = 25`) flushing 25 records rotates to segment 2,
resets the filled counter, records 2 in the meta file, and leaves
segment 2 truncated. -/
theorem C3_rotation_at_capacity_div_4_witness :
    (WalWriter.run_iter ⟨25, 0, 1⟩ ⟨1, fun _ => []⟩ ⟨true, true⟩
        (List.replicate 25 ⟨[]⟩) .msg).st.pointer =
      (if 1 + 1 > 5 then 1 else 1 + 1) ∧
    (WalWriter.run_iter ⟨25, 0, 1⟩ ⟨1, fun _ => []⟩ ⟨true, true⟩
        (List.replicate 25 ⟨[]⟩) .msg).st.filled = 0 ∧
    (WalWriter.run_iter ⟨25, 0, 1⟩ ⟨1, fun _ => []⟩ ⟨true, true⟩
        (List.replicate 25 ⟨[]⟩) .msg).fs.meta =
      (WalWriter.run_iter ⟨25, 0, 1⟩ ⟨1, fun _ => []⟩ ⟨true, true⟩
        (List.replicate 25 ⟨[]⟩) .msg).st.pointer ∧
    (WalWriter.run_iter ⟨25, 0, 1⟩ ⟨1, fun _ => []⟩ ⟨true, true⟩
        (List.replicate 25 ⟨[]⟩) .msg).fs.segs
      (WalWriter.run_iter ⟨25, 0, 1⟩ ⟨1, fun _ => []⟩ ⟨true, true⟩
        (List.replicate 25 ⟨[]⟩) .msg).st.pointer = [] :=
  C3_rotation_at_capacity_div_4 ⟨25, 0, 1⟩ ⟨1, fun _ => []⟩ ⟨true, true⟩
    (List.replicate 25 ⟨[]⟩) .msg (by decide) (by decide) (by decide)

/-- C10: `WalWriter::new` unconditionally calls
`set_pointer(location, 1, false)`: whatever was on disk before, the meta
file ends up holding index 1, no segment is truncated (`delete` is
false, and `wal_1` is opened in append mode), the filled counter starts
at 0, the pointer starts at 1, and the per-file capacity is a quarter of
the configured capacity — so pre-existing `wal_1` bytes survive but are
not counted toward the per-segment budget. -/
theorem C10_new_overwrites_meta_and_keeps_segments (fs : Fs) (capacity : Nat) :
    (WalWriter.new fs capacity).2.meta = 1 ∧
    (WalWriter.new fs capacity).2.segs = fs.segs ∧
    (WalWriter.new fs capacity).1.filled = 0 ∧
    (WalWriter.new fs capacity).1.pointer = 1 ∧
    (WalWriter.new fs capacity).1.capacity_per_file = capacity / 4 :=
  ⟨rfl, rfl, rfl, rfl, rfl⟩

/-- C5 counterexample: the claim quantifies over any sequence of
`add`/`bulk_add` calls inserting a total of `k ≥ 1` frames and says
exactly one call returns the "was empty" signal.  But `bulk_add` of an
empty vector on an empty buffer returns the signal while inserting
nothing (src/buffer.rs lines 28-36): the sequence
`[bulk_add [], add e]` inserts one frame in total, yet both calls
return true. -/
theorem C5_empty_bulk_add_gives_extra_signal :
    ((List.map BufOp.size [BufOp.bulkAdd [], BufOp.add ⟨[]⟩]).sum = 1 ∧ 1 ≤ 1) ∧
    (runOps [] [BufOp.bulkAdd [], BufOp.add ⟨[]⟩]).count true = 2 := by
  decide

/-- Helper: once the buffer is non-empty, every further `add`/`bulk_add`
returns false, because both operations only ever append. -/
theorem runOps_of_ne_nil (ops : List BufOp) :
    ∀ buf : List LogEntry, buf ≠ [] →
      runOps buf ops = List.replicate ops.length false := by
  induction ops with
  | nil => intro buf _; rfl
  | cons op ops ih =>
      intro buf hbuf
      have hbe : buf.isEmpty = false := by
        cases buf with
        | nil => exact absurd rfl hbuf
        | cons a l => rfl
      have happ : (BufOp.apply buf op).1 ≠ [] := by
        cases op with
        | add e => simp [BufOp.apply, Buffer.add]
        | bulkAdd es => simp [BufOp.apply, Buffer.bulk_add, hbuf]
      have hsig : (BufOp.apply buf op).2 = false := by
        cases op with
        | add e => simpa [BufOp.apply, Buffer.add] using hbe
        | bulkAdd es => simpa [BufOp.apply, Buffer.bulk_add] using hbe
      simp [runOps, hsig, ih _ happ, List.replicate_succ]

/-- C5 (amended): starting from an empty staging buffer, for any
sequence of `add`/`bulk_add` calls each of which inserts at least one
frame, exactly one call — the first, which performs the
empty-to-non-empty transition — returns the "was empty" signal, and
every other call returns false, regardless of how many frames each call
inserts.  (The mutex serializes the calls, so any distribution over
threads is some such sequence.) -/
theorem C5_exactly_one_signal (ops : List BufOp) (hne : ops ≠ [])
    (hsz : ∀ op ∈ ops, 1 ≤ BufOp.size op) :
    runOps [] ops = true :: List.replicate (ops.length - 1) false := by
  cases ops with
  | nil => exact absurd rfl hne
  | cons op ops =>
      have h1 : (BufOp.apply [] op).2 = true := by
        cases op with
        | add e => rfl
        | bulkAdd es => rfl
      have hop : 1 ≤ BufOp.size op := hsz op (List.mem_cons_self op ops)
      have happ : (BufOp.apply [] op).1 ≠ [] := by
        cases op with
        | add e => simp [BufOp.apply, Buffer.add]
        | bulkAdd es =>
            cases es with
            | nil => exact absurd hop (by simp [BufOp.size])
            | cons a l => simp [BufOp.apply, Buffer.bulk_add]
      simp [runOps, h1, runOps_of_ne_nil ops _ happ]

/-- Witness for C5 (amended): the sequence `[add e, bulk_add [e, e]]`
inserts three frames; only the first call signals. -/
theorem C5_exactly_one_signal_witness :
    runOps [] [BufOp.add ⟨[]⟩, BufOp.bulkAdd [⟨[]⟩, ⟨[]⟩]] =
      true :: List.replicate ([BufOp.add ⟨[]⟩,
        BufOp.bulkAdd [⟨[]⟩, ⟨[]⟩]].length - 1) false :=
  C5_exactly_one_signal [BufOp.add ⟨[]⟩, BufOp.bulkAdd [⟨[]⟩, ⟨[]⟩]]
    (by decide) (by decide)

/-- C6: the decode-and-truncate phase of `Wal::read` keeps all decoded
records (in order, unchanged) when their number is at most `capacity`,
and otherwise keeps exactly the trailing `capacity` of them: the
returned list has length `capacity` and the decoded list is the dropped
front prefix followed by the returned list, so the kept records are the
most recent ones with their relative order preserved. -/
theorem C6_read_keeps_most_recent (dec : List Nat → Option T) (capacity : Nat)
    (entries : List LogEntry) :
    ((entries.filterMap (fun e => LogEntry.to_original dec e)).length ≤ capacity →
      Wal.read_post dec capacity entries =
        entries.filterMap (fun e => LogEntry.to_original dec e)) ∧
    (capacity < (entries.filterMap (fun e => LogEntry.to_original dec e)).length →
      (Wal.read_post dec capacity entries).length = capacity ∧
      entries.filterMap (fun e => LogEntry.to_original dec e) =
        (entries.filterMap (fun e => LogEntry.to_original dec e)).take
            ((entries.filterMap (fun e => LogEntry.to_original dec e)).length -
              capacity) ++
          Wal.read_post dec capacity entries) := by
  constructor
  · intro h
    unfold Wal.read_post
    rw [if_neg (by omega)]
  · intro h
    unfold Wal.read_post
    rw [if_pos h]
    constructor
    · rw [List.length_drop]
      omega
    · exact (List.take_append_drop _ _).symm

/-- Witness for C6: with an identity decode capability, capacity 2 keeps
the last two of three decoded records, and capacity 5 keeps all three. -/
theorem C6_read_keeps_most_recent_witness :
    Wal.read_post (fun l => some l) 5 [⟨[1]⟩, ⟨[2]⟩, ⟨[3]⟩] =
      [⟨[1]⟩, ⟨[2]⟩, ⟨[3]⟩].filterMap
        (fun e => LogEntry.to_original (fun l => some l) e) ∧
    (Wal.read_post (fun l => some l) 2 [⟨[1]⟩, ⟨[2]⟩, ⟨[3]⟩]).length = 2 ∧
    [⟨[1]⟩, ⟨[2]⟩, ⟨[3]⟩].filterMap
        (fun e => LogEntry.to_original (fun l => some l) e) =
      ([⟨[1]⟩, ⟨[2]⟩, ⟨[3]⟩].filterMap
          (fun e => LogEntry.to_original (fun l => some l) e)).take
          (([⟨[1]⟩, ⟨[2]⟩, ⟨[3]⟩].filterMap
            (fun e => LogEntry.to_original (fun l => some l) e)).length - 2) ++
        Wal.read_post (fun l => some l) 2 [⟨[1]⟩, ⟨[2]⟩, ⟨[3]⟩] :=
  ⟨(C6_read_keeps_most_recent (fun l => some l) 5 [⟨[1]⟩, ⟨[2]⟩, ⟨[3]⟩]).1
      (by decide),
    (C6_read_keeps_most_recent (fun l => some l) 2 [⟨[1]⟩, ⟨[2]⟩, ⟨[3]⟩]).2
      (by decide)⟩

/-- The spec's visitation order for C7, written from the spec's words:
`p, p-1, …, 1, N, N-1, …` with `N = 5` — the descending run from `p`
down to 1 followed by the descending run from 5 down to `p + 1`. -/
def spec_read_order (p : Nat) : List Nat :=
  (List.range' 1 p).reverse ++ (List.range' (p + 1) (5 - p)).reverse

/-- C7: for a pointer `p` in `1..5` read from the meta file, the
reader's visitation order is exactly the descending wrapping order
`p, p-1, …, 1, 5, 4, …` of the spec; it visits exactly five segments,
each exactly once, and the byte buffer `WalReader::read` parses is the
concatenation of the segment contents in that visitation order. -/
theorem C7_reader_visits_in_descending_wrapping_order (p : Nat) (fs : Fs)
    (h1 : 1 ≤ p) (h5 : p ≤ 5) :
    read_order p = spec_read_order p ∧
    (read_order p).length = 5 ∧
    (read_order p).Nodup ∧
    WalReader.read_bytes fs p = ((spec_read_order p).map fs.segs).flatten := by
  interval_cases p <;>
    exact ⟨by decide, by decide, by decide, rfl⟩

/-- Witness for C7: pointer 3 visits `[3, 2, 1, 5, 4]`, and on a file
system where segment `i` holds the single byte `i` the reader's buffer
is the concatenation in that order. -/
theorem C7_reader_visits_in_descending_wrapping_order_witness :
    read_order 3 = spec_read_order 3 ∧
    (read_order 3).length = 5 ∧
    (read_order 3).Nodup ∧
    WalReader.read_bytes ⟨3, fun i => [i]⟩ 3 =
      ((spec_read_order 3).map (Fs.segs ⟨3, fun i => [i]⟩)).flatten :=
  C7_reader_visits_in_descending_wrapping_order 3 ⟨3, fun i => [i]⟩
    (by decide) (by decide)

/-- Helper: decoding the four length-header bytes recovers the length
whenever it fits in a `u32`. -/
theorem u32_header_roundtrip (n : Nat) (h : n < 4294967296) :
    u32_from_ne_bytes (n % 256) (n / 256 % 256) (n / 65536 % 256)
      (n / 16777216 % 256) = n := by
  unfold u32_from_ne_bytes
  omega

/-- Helper: the parsing loop recovers the framed entries from the
concatenation of their `to_vec` encodings, for any sufficient fuel
(the loop consumes at least 4 bytes per iteration). -/
theorem parse_frames_aux_flatten (es : List LogEntry) :
    ∀ fuel : Nat, ((es.map LogEntry.to_vec).flatten).length ≤ fuel →
      (∀ e ∈ es, e.inner.length < 4294967296) →
      parse_frames_aux fuel ((es.map LogEntry.to_vec).flatten) = .ok es := by
  induction es with
  | nil =>
      intro fuel _ _
      cases fuel <;> rfl
  | cons e es ih =>
      intro fuel hfuel hlen
      have he : e.inner.length < 4294967296 :=
        hlen e (List.mem_cons_self e es)
      have htv : LogEntry.to_vec e = e.inner.length % 256 ::
            (e.inner.length / 256 % 256) :: (e.inner.length / 65536 % 256) ::
            (e.inner.length / 16777216 % 256) :: e.inner := rfl
      rw [List.map_cons, List.flatten_cons, htv] at hfuel ⊢
      simp only [List.cons_append, List.length_cons, List.length_append] at hfuel ⊢
      obtain ⟨fuel', rfl⟩ : ∃ fuel', fuel = fuel' + 1 :=
        ⟨fuel - 1, by omega⟩
      rw [parse_frames_aux]
      rw [u32_header_roundtrip e.inner.length he]
      rw [if_pos (by simp only [List.length_append]; omega)]
      rw [List.take_left, List.drop_left]
      rw [ih fuel' (by omega)
        (fun x hx => hlen x (List.mem_cons_of_mem e hx))]
      rfl

/-- C8: framing round-trips.  For every sequence of encodable values
(each value encodes to some payload, and the abstract codec satisfies
the collaborator contract `decode(encode(v)) = v` — with payloads that
fit the 4-byte length header), framing each payload with `to_vec`,
concatenating the frames, parsing the concatenation with the reader's
length-prefix loop, and decoding each recovered payload with
`to_original` yields back exactly the original values in order. -/
theorem C8_framing_roundtrip (enc : T → Option LogEntry)
    (dec : List Nat → Option T)
    (hrt : ∀ v e, enc v = some e → LogEntry.to_original dec e = some v)
    (vs : List T) (es : List LogEntry)
    (henc : vs.map enc = es.map some)
    (hlen : ∀ e ∈ es, e.inner.length < 4294967296) :
    parse_frames ((es.map LogEntry.to_vec).flatten) = .ok es ∧
    es.filterMap (fun e => LogEntry.to_original dec e) = vs := by
  constructor
  · unfold parse_frames
    exact parse_frames_aux_flatten es _ le_rfl hlen
  · induction vs generalizing es with
    | nil =>
        cases es with
        | nil => rfl
        | cons a l => simp at henc
    | cons v vs ih =>
        cases es with
        | nil => simp at henc
        | cons e es' =>
            simp only [List.map_cons, List.cons.injEq] at henc
            obtain ⟨h1, h2⟩ := henc
            simp [List.filterMap_cons, hrt v e h1,
              ih es' h2 (fun x hx => hlen x (List.mem_cons_of_mem e hx))]

/-- Witness for C8: two values encoded by an identity codec; the parse
of the concatenated frames recovers both payloads and decoding returns
the original values. -/
theorem C8_framing_roundtrip_witness :
    parse_frames (([LogEntry.mk [7], LogEntry.mk [8, 9]].map
        LogEntry.to_vec).flatten) = .ok [⟨[7]⟩, ⟨[8, 9]⟩] ∧
    [LogEntry.mk [7], LogEntry.mk [8, 9]].filterMap
        (fun e => LogEntry.to_original (fun l => some l) e) = [[7], [8, 9]] :=
  C8_framing_roundtrip (fun v => some ⟨v⟩) (fun l => some l)
    (fun v e h => by cases h; rfl) [[7], [8, 9]] [⟨[7]⟩, ⟨[8, 9]⟩]
    rfl (by decide)

/-- C9: an encode failure in `Wal::write` leaves the staging buffer
unchanged and sends no notification; on success the entry is appended
and a notification is sent exactly on the empty-to-non-empty
transition.  `Wal::batch_write` drops exactly the entries that fail to
encode and buffers the successfully encoded ones in order
(`filterMap enc`); when no entry encodes it returns with the buffer
unchanged and no notification. -/
theorem C9_encode_failure_drops_silently (enc : T → Option LogEntry)
    (buf : List LogEntry) (v : T) (entries : List T) :
    (enc v = none → Wal.write enc buf v = (buf, false)) ∧
    (∀ e, enc v = some e → Wal.write enc buf v = (buf ++ [e], buf.isEmpty)) ∧
    (entries.filterMap enc = [] → Wal.batch_write enc buf entries = (buf, false)) ∧
    (entries.filterMap enc ≠ [] →
      Wal.batch_write enc buf entries =
        (buf ++ entries.filterMap enc, buf.isEmpty)) := by
  refine ⟨fun h => ?_, fun e h => ?_, fun h => ?_, fun h => ?_⟩
  · simp [Wal.write, h]
  · simp [Wal.write, h, Buffer.add]
  · simp [Wal.batch_write, h]
  · have hbe : (entries.filterMap enc).isEmpty = false := by
      cases hfm : entries.filterMap enc with
      | nil => exact absurd hfm h
      | cons a l => rfl
    simp [Wal.batch_write, hbe, Buffer.bulk_add]

/-- A sample encode capability for the C9 witness: even numbers encode
to their single-byte payload, odd numbers fail to encode. -/
def encEven : Nat → Option LogEntry :=
  fun n => if n % 2 = 0 then some ⟨[n]⟩ else none

/-- Witness for C9: writing the unencodable 1 leaves the buffer alone;
writing 2 appends it and notifies; batch-writing `[1, 3]` (all fail)
changes nothing; batch-writing `[1, 2, 3, 4]` buffers `[2]` and `[4]`
in order and notifies once. -/
theorem C9_encode_failure_drops_silently_witness :
    Wal.write encEven [] 1 = ([], false) ∧
    Wal.write encEven [] 2 = ([⟨[2]⟩], true) ∧
    Wal.batch_write encEven [] [1, 3] = ([], false) ∧
    Wal.batch_write encEven [] [1, 2, 3, 4] = ([⟨[2]⟩, ⟨[4]⟩], true) :=
  ⟨(C9_encode_failure_drops_silently encEven [] 1 []).1 (by decide),
    (C9_encode_failure_drops_silently encEven [] 2 []).2.1 ⟨[2]⟩ (by decide),
    (C9_encode_failure_drops_silently encEven [] 0 [1, 3]).2.2.1 (by decide),
    (C9_encode_failure_drops_silently encEven [] 0 [1, 2, 3, 4]).2.2.2
      (by decide)⟩

end Walcraft
